import Mathlib

/-!
Verification of the view-container component (packages/core/src/browser/view-container.ts).

The development shallowly embeds the three cooperating classes of the source file:

* `ViewContainerPart` becomes `PartState`: the wrapped-widget id, the persistence
  key `partId`, the creation options, the `collapsed` / `hidden` flags and the
  layout-owned `uncollapsedSize` / `animatedSize` fields.  Two additional fields
  stand for quantities the source reads from the DOM at query time: `minSize`
  (the computed min-width/min-height of the body) and `offsetSize`
  (`node.offsetWidth` / `node.offsetHeight` along the layout axis).
* `ViewContainerLayout` and `ViewContainer` share one record `ContainerState`:
  the ordered part list, the resolved orientation, the layout options
  (`headerSize`, `spacing`, `animationDuration`), the attachment flag and the
  measured extent of the parent node along the layout axis.

JavaScript numbers are modelled as rationals.  JavaScript truthiness of an
optional number (`undefined` and `0` are falsy) is `qTruthy`, and the `a || b`
idiom on numbers is `jsOr`.  Side effects on external collaborators are made
explicit: `setHandlePosition` calls become the returned list of
`(index, position)` pairs of `setPartSizes`, and the animation of
`updateCollapsed` is represented by the direction and target full size it
computes before scheduling frames.  Calls that are deferred behind the
one-shot `attached` gate are applied to the same state, whose `attached` /
`parentSize` fields stand for the post-attachment measurements.
-/

inductive SplitOrientation where
  | horizontal
  | vertical
deriving DecidableEq, Repr, Inhabited

/-- Model of `ViewContainer.Factory.WidgetOptions`: all fields are optional in the source. -/
structure WidgetOptions where
  order : Option ℚ := none
  weight : Option ℚ := none
  initiallyCollapsed : Option Bool := none
  canHide : Option Bool := none
  initiallyHidden : Option Bool := none
deriving DecidableEq, Repr, Inhabited

/-- State of one `ViewContainerPart`. -/
structure PartState where
  /-- Model of `this.id`, set to `viewContainerId ++ "--" ++ wrapped.id` in the constructor. -/
  id : String
  /-- Model of `wrapped.id`, the id of the wrapped widget. -/
  wrappedId : String
  /-- The persistence key, a serialized widget description or the widget id. -/
  partId : String
  options : WidgetOptions
  /-- The private `_collapsed` flag, written only through the `collapsed` setter. -/
  collapsed : Bool
  /-- The phosphor `isHidden` flag, written through `setHidden` / `hide`. -/
  hidden : Bool
  uncollapsedSize : Option ℚ
  animatedSize : Option ℚ
  /-- The `minSize` getter: computed style min-height (vertical) / min-width
  (horizontal) of the body, with fallback `0`; kept as a field of the model. -/
  minSize : ℚ
  /-- Model of `node.offsetHeight` (vertical) / `node.offsetWidth` (horizontal): the
  currently rendered extent of the part along the layout axis. -/
  offsetSize : ℚ
deriving DecidableEq, Repr, Inhabited

/-- The `canHide` getter: `options.canHide === undefined || options.canHide`. -/
def PartState.canHide (p : PartState) : Bool :=
  p.options.canHide.getD true

/-- Model of `ViewContainerLayout.Options`: `headerSize`, `animationDuration` plus the
split-layout `spacing`.  The container constructor passes 22 / 200 / 2. -/
structure LayoutOptions where
  headerSize : ℚ
  spacing : ℚ
  animationDuration : ℚ
deriving DecidableEq, Repr, Inhabited

/-- Combined state of a `ViewContainer` and its `ViewContainerLayout`. -/
structure ContainerState where
  /-- Model of `this.id` of the container widget. -/
  id : String
  orientation : SplitOrientation
  opts : LayoutOptions
  /-- The ordered part sequence held by the split layout. -/
  parts : List PartState
  /-- Model of `this.parent.isAttached` of the layout (the parent split panel). -/
  attached : Bool
  /-- Model of `parent.node.offsetWidth` / `offsetHeight` along the layout axis. -/
  parentSize : ℚ
deriving DecidableEq, Repr, Inhabited

/-- Model of `ViewContainerPart.State`, the persisted per-part record. -/
structure PartStoredState where
  partId : String
  collapsed : Bool
  hidden : Bool
  relativeSize : Option ℚ
deriving DecidableEq, Repr, Inhabited

/-- Model of `ViewContainerPart.HEADER_HEIGHT`. -/
def HEADER_HEIGHT : ℚ := 22

/-- JavaScript truthiness of an optional number: `undefined` and `0` are falsy. -/
def qTruthy : Option ℚ → Bool
  | none => false
  | some x => x != 0

/-- The JavaScript `a || b` idiom on an optional number `a` and a number `b`. -/
def jsOr (a : Option ℚ) (b : ℚ) : ℚ :=
  match a with
  | none => b
  | some x => if x = 0 then b else x

/-- The `collapsed` setter of `ViewContainerPart`: a no-op when the flag already
has the requested value or when the orientation is horizontal and the request
is to collapse.  (The collapse-changed event it fires reaches
`ViewContainerLayout.updateCollapsed`, which only touches `uncollapsedSize` and
`animatedSize`; that side effect is modelled separately by `updateCollapsed`.) -/
def setCollapsed (orientation : SplitOrientation) (p : PartState) (c : Bool) : PartState :=
  if p.collapsed == c || (orientation == .horizontal && c) then p
  else { p with collapsed := c }

/-- Phosphor `Widget.setHidden`: sets the hidden flag. -/
def setHidden (p : PartState) (h : Bool) : PartState :=
  { p with hidden := h }

/-- Model of `ViewContainerLayout.getPartSize`: the retained size for collapsed or
hidden parts, else the rendered extent along the layout axis. -/
def getPartSize (p : PartState) : Option ℚ :=
  if p.collapsed || p.hidden then p.uncollapsedSize
  else some p.offsetSize

/-- Model of `ViewContainerLayout.getAvailableSize`: parent extent minus one header per
visible part (vertical only) minus spacing times (visible count - 1), clamped
at zero; `0` when the parent is not attached.  Note that the subtraction uses
the JavaScript number `visiblePartCount - 1`, which is `-1` for zero visible
parts. -/
def getAvailableSize (cs : ContainerState) : ℚ :=
  if !cs.attached then 0
  else
    let visiblePartCount : ℚ := ((cs.parts.filter (fun p => !p.hidden)).length : ℚ)
    let base := if cs.orientation == .horizontal then cs.parentSize
      else cs.parentSize - visiblePartCount * cs.opts.headerSize
    let availableSize := base - (visiblePartCount - 1) * cs.opts.spacing
    if availableSize < 0 then 0 else availableSize

/-- The main loop of `setPartSizes` over the pairs `(parts[index], weights[index])`
for `index < weights.length` and `index < parts.length - 1`, carrying the
running `position`.  Returns the updated parts of the processed prefix together
with the `setHandlePosition(index, position)` calls it issues. -/
def setPartSizesLoop (orientation : SplitOrientation) (headerSize spacing totalWeight averageWeight availableSize : ℚ) :
    List (PartState × Option ℚ) → ℚ → Nat → List PartState × List (Nat × ℚ)
  | [], _, _ => ([], [])
  | (part, weight) :: rest, position, index =>
    if part.hidden then
      let r := setPartSizesLoop orientation headerSize spacing totalWeight averageWeight availableSize
        rest position (index + 1)
      (part :: r.1, r.2)
    else
      let position := if orientation == .vertical then position + headerSize else position
      let pp :=
        if part.collapsed then
          (if qTruthy weight then
            { part with uncollapsedSize := some (weight.getD 0 / totalWeight * availableSize) }
          else part, position)
        else
          let contentSize := jsOr weight averageWeight / totalWeight * availableSize
          let contentSize := if contentSize < part.minSize then part.minSize else contentSize
          (part, position + contentSize)
      let r := setPartSizesLoop orientation headerSize spacing totalWeight averageWeight availableSize
        rest (pp.2 + spacing) (index + 1)
      (pp.1 :: r.1, (index, pp.2) :: r.2)

/-- Model of `ViewContainerLayout.setPartSizes`: distribute the available size over the
visible expanded parts proportionally to the given weights, treating weightless
visible expanded parts as carrying the average weight; collapsed parts only
update their `uncollapsedSize`.  Returns the new state and the emitted
`setHandlePosition` calls. -/
def setPartSizes (cs : ContainerState) (weights : List (Option ℚ)) : ContainerState × List (Nat × ℚ) :=
  let parts := cs.parts
  let availableSize := getAvailableSize cs
  let zipped := parts.zip weights
  let totalWeight0 :=
    (zipped.map (fun pw => if qTruthy pw.2 && !pw.1.hidden && !pw.1.collapsed then pw.2.getD 0 else 0)).sum
  let weightCount := (zipped.filter (fun pw => qTruthy pw.2 && !pw.1.hidden && !pw.1.collapsed)).length
  if weightCount == 0 || availableSize == 0 then (cs, [])
  else
    let averageWeight := totalWeight0 / (weightCount : ℚ)
    let totalWeight := totalWeight0 +
      averageWeight * (((zipped.filter (fun pw => !qTruthy pw.2 && !pw.1.hidden && !pw.1.collapsed)).length : ℚ))
    let pairs := parts.dropLast.zip weights
    let r := setPartSizesLoop cs.orientation cs.opts.headerSize cs.opts.spacing
      totalWeight averageWeight availableSize pairs 0 0
    ({ cs with parts := r.1 ++ parts.drop pairs.length }, r.2)

inductive AnimDirection where
  | collapse
  | expand
deriving DecidableEq, Repr, Inhabited

/-- Model of `ViewContainerLayout.updateCollapsed` for the part at `index`.  Performs the
`uncollapsedSize` snapshot, and returns the animation direction and target full
size it would drive `animatedSize` with (`none` when it bails out early or when
animation is disabled / the configured duration is not positive). -/
def updateCollapsed (cs : ContainerState) (index : Nat) (enableAnimation : Bool) :
    ContainerState × Option (AnimDirection × ℚ) :=
  match cs.parts[index]? with
  | none => (cs, none)
  | some part =>
    if part.hidden then (cs, none)
    else
      let currentSize := part.offsetSize
      let parts :=
        if part.collapsed && cs.parts.any (fun w => !w.collapsed && !w.hidden) then
          cs.parts.set index { part with uncollapsedSize := some currentSize }
        else cs.parts
      let cs := { cs with parts := parts }
      if !enableAnimation || decide (cs.opts.animationDuration ≤ 0) then (cs, none)
      else
        let fullSize :=
          if part.collapsed then currentSize - cs.opts.headerSize
          else
            let f := max (jsOr part.uncollapsedSize 0 - cs.opts.headerSize) part.minSize
            if (cs.parts.filter (fun w => !w.collapsed && !w.hidden)).length == 1 then
              max f (getAvailableSize cs)
            else f
        (cs, some (if part.collapsed then AnimDirection.collapse else AnimDirection.expand, fullSize))

/-- The per-part record built by `ViewContainer.storeState`: the raw part size,
reduced by the header height once it exceeds it (vertical orientation), turned
into a fraction of the available size when both are truthy. -/
def storeStatePart (cs : ContainerState) (availableSize : ℚ) (part : PartState) : PartStoredState :=
  let size := getPartSize part
  let size : Option ℚ :=
    match size with
    | some s =>
      if s != 0 && decide (HEADER_HEIGHT < s) && cs.orientation == .vertical then some (s - HEADER_HEIGHT)
      else some s
    | none => none
  { partId := part.partId
    collapsed := part.collapsed
    hidden := part.hidden
    relativeSize :=
      match size with
      | some s => if s != 0 && availableSize != 0 then some (s / availableSize) else none
      | none => none }

/-- Model of `ViewContainer.storeState`. -/
def storeState (cs : ContainerState) : List PartStoredState :=
  cs.parts.map (storeStatePart cs (getAvailableSize cs))

/-- Model of `ViewContainerLayout.moveWidget` (phosphor `ArrayExt.move`): remove the
element at `fromIdx` and reinsert it at `toIdx`. -/
def moveWidget (l : List PartState) (fromIdx toIdx : Nat) : List PartState :=
  match l[fromIdx]? with
  | none => l
  | some x => (l.eraseIdx fromIdx).insertIdx toIdx x

/-- The reorder loop of `restoreState`: for each stored entry in turn, find the
current index of the matching live part and move it forward when it sits after
the target index.  (`findIndex` returning `-1` in the source corresponds to the
`none` branch.) -/
def restoreReorder : List PartState → List PartStoredState → Nat → List PartState
  | parts, [], _ => parts
  | parts, s :: rest, index =>
    let parts :=
      match parts.findIdx? (fun p => p.partId == s.partId) with
      | some currentIndex => if index < currentIndex then moveWidget parts currentIndex index else parts
      | none => parts
    restoreReorder parts rest (index + 1)

/-- The visibility/collapse phase of `restoreState` applied to one live part:
with a matching stored entry, request `collapsed = stored.collapsed || !stored.relativeSize`
through the collapsed setter and, when allowed, adopt the stored hidden flag;
without a matching entry, hide the part when allowed. -/
def applyStoredFlags (orientation : SplitOrientation) (partStates : List PartStoredState) (part : PartState) : PartState :=
  match partStates.find? (fun s => part.partId == s.partId) with
  | some partState =>
    let part := setCollapsed orientation part (partState.collapsed || !qTruthy partState.relativeSize)
    if part.canHide then setHidden part partState.hidden else part
  | none =>
    if part.canHide then setHidden part true else part

/-- Model of `ViewContainer.restoreState`: drop stored entries with no live match,
reorder, restore visibility and collapsed flags, then (once attached) apply the
stored relative sizes through `setPartSizes`. -/
def restoreState (cs : ContainerState) (stored : List PartStoredState) : ContainerState :=
  let partStates := stored.filter (fun s => cs.parts.any (fun p => p.partId == s.partId))
  let parts := restoreReorder cs.parts partStates 0
  let parts := parts.map (applyStoredFlags cs.orientation partStates)
  let cs := { cs with parts := parts }
  (setPartSizes cs (partStates.map (fun s => s.relativeSize))).1

/-- The `ViewContainerPart` constructor: derives the DOM id, applies
`initiallyCollapsed` through the collapsed setter (the fresh node is detached,
so the orientation resolves to vertical) and `initiallyHidden` when hiding is
allowed. -/
def makePart (viewContainerId wrappedId partId : String) (options : WidgetOptions) : PartState :=
  let p : PartState :=
    { id := viewContainerId ++ "--" ++ wrappedId
      wrappedId := wrappedId
      partId := partId
      options := options
      collapsed := false
      hidden := false
      uncollapsedSize := none
      animatedSize := none
      minSize := 0
      offsetSize := 0 }
  let p := setCollapsed .vertical p (options.initiallyCollapsed.getD false)
  if options.initiallyHidden.getD false && p.canHide then setHidden p true else p

/-- Model of `ViewContainer.addWidget`: a no-op returning the null disposable when a
live part already wraps the widget id; otherwise the new part is inserted
before the first part whose order is undefined or greater than the requested
order, else appended.  The boolean result distinguishes the real disposable
from `Disposable.NULL`.  The widget-manager description (already serialized)
is passed in as `description`. -/
def addWidget (cs : ContainerState) (widgetId : String) (description : Option String)
    (options : WidgetOptions) : ContainerState × Bool :=
  if cs.parts.any (fun p => p.wrappedId == widgetId) then (cs, false)
  else
    let partId := description.getD widgetId
    let newPart := makePart cs.id widgetId partId options
    let parts :=
      match options.order with
      | some k =>
        match cs.parts.findIdx? (fun p =>
            match p.options.order with
            | none => true
            | some o => decide (k < o)) with
        | some index => cs.parts.insertIdx index newPart
        | none => cs.parts ++ [newPart]
      | none => cs.parts ++ [newPart]
    ({ cs with parts := parts }, true)

/-- Model of `ViewContainer.toggleVisibility`: only for parts that may hide, flip the
hidden flag and reset the collapsed flag when the part becomes visible. -/
def toggleVisibility (orientation : SplitOrientation) (p : PartState) : PartState :=
  if p.canHide then
    let p := setHidden p (!p.hidden)
    if !p.hidden then setCollapsed orientation p false else p
  else p

/-- The `execute` of the per-part toggle-visibility command: find the live part
with the registered id and toggle its visibility. -/
def toggleVisibilityCommand (cs : ContainerState) (targetId : String) : ContainerState :=
  match cs.parts.findIdx? (fun p => p.id == targetId) with
  | some index =>
    match cs.parts[index]? with
    | some p => { cs with parts := cs.parts.set index (toggleVisibility cs.orientation p) }
    | none => cs
  | none => cs

/-- The `execute` of the global hide command: the DOM hit-test of the anchor is
abstracted as the optional id of the resolved part; the resolved part is hidden
only when it allows hiding. -/
def globalHideExecute (cs : ContainerState) (resolvedId : Option String) : ContainerState :=
  match resolvedId with
  | none => cs
  | some targetId =>
    match cs.parts.findIdx? (fun p => p.id == targetId) with
    | some index =>
      match cs.parts[index]? with
      | some p => if p.canHide then { cs with parts := cs.parts.set index (setHidden p true) } else cs
      | none => cs
    | none => cs

/-- Model of `ViewContainer.onAfterAttach`: adopt the resolved orientation, force every
collapsed flag to false when it is horizontal, and complete attachment. -/
def onAfterAttach (cs : ContainerState) (resolved : SplitOrientation) : ContainerState :=
  let cs := { cs with orientation := resolved, attached := true }
  if resolved == .horizontal then
    { cs with parts := cs.parts.map (fun p => setCollapsed .horizontal p false) }
  else cs

/-- An external write to the collapsed flag of the part at `index` (a header
click or the restore logic), routed through the collapsed setter. -/
def setPartCollapsed (cs : ContainerState) (index : Nat) (c : Bool) : ContainerState :=
  match cs.parts[index]? with
  | some p => { cs with parts := cs.parts.set index (setCollapsed cs.orientation p c) }
  | none => cs

/-- The observable flags of a part for the round-trip properties: persistence
key, collapsed and hidden. -/
def flagsOf (p : PartState) : String × Bool × Bool :=
  (p.partId, p.collapsed, p.hidden)

/-- A part with its `uncollapsedSize` erased: `setPartSizes` changes parts at
most in this field. -/
def eraseUSize (p : PartState) : PartState :=
  { p with uncollapsedSize := none }

/-- Normalization of a JavaScript optional weight: an explicit `0` behaves like
an absent weight everywhere in `setPartSizes`. -/
def normWeight : Option ℚ → Option ℚ
  | none => none
  | some x => if x = 0 then none else some x

/-- The accumulated handle position of the claim: after part `i` (vertical
orientation), one header per part walked, the clamped content size of every
part walked, and one spacing gap per handle already placed. -/
def accumHandlePos (opts : LayoutOptions) (size : Nat → ℚ) : Nat → ℚ
  | 0 => opts.headerSize + size 0
  | i + 1 => accumHandlePos opts size i + opts.spacing + opts.headerSize + size (i + 1)

/-! ### Concrete fixtures used by witnesses and counterexamples -/

/-- The layout options passed by the container constructor (header 22,
spacing 2, animation duration 200). -/
def exOpts : LayoutOptions := { headerSize := 22, spacing := 2, animationDuration := 200 }

/-- Convenience constructor for concrete example parts. -/
def exPart (pid : String) (collapsed hidden : Bool) (offsetSize minSize : ℚ)
    (uncollapsedSize : Option ℚ) (options : WidgetOptions) : PartState :=
  { id := "c--" ++ pid, wrappedId := pid, partId := pid, options := options,
    collapsed := collapsed, hidden := hidden, uncollapsedSize := uncollapsedSize,
    animatedSize := none, minSize := minSize, offsetSize := offsetSize }

/-- The scenario of the spec: three visible expanded parts, vertical
orientation, available size 1000 (parent extent 1070 = 1000 + 3 headers + 2
spacing gaps). -/
def ex3 : ContainerState :=
  { id := "c", orientation := .vertical, opts := exOpts,
    parts := [exPart "a" false false 522 0 none {}, exPart "b" false false 322 0 none {},
      exPart "d" false false 222 0 none {}],
    attached := true, parentSize := 1070 }

/-- A container that was never attached: every measured size is zero. -/
def exDetached : ContainerState :=
  { id := "c", orientation := .vertical, opts := exOpts,
    parts := [exPart "a" false false 100 0 none {}], attached := false, parentSize := 0 }

/-- An attached single-part container used for the stored-state counterexample. -/
def exC6C : ContainerState :=
  { id := "c", orientation := .vertical, opts := exOpts,
    parts := [exPart "a" false false 100 0 none {}], attached := true, parentSize := 200 }

/-- A stored state whose entry matches the live part and carries an explicit
`relativeSize` of `0`. -/
def exC6Stored : List PartStoredState :=
  [{ partId := "a", collapsed := false, hidden := false, relativeSize := some 0 }]

/-- A part that refuses hiding. -/
def exNoHide : PartState := exPart "n" false false 50 0 none { canHide := some false }

/-- A hidden part that allows hiding. -/
def exHidden : PartState := exPart "h" false true 50 0 none {}

/-- A two-part container mixing the two parts above. -/
def exMix : ContainerState :=
  { id := "c", orientation := .vertical, opts := exOpts,
    parts := [exNoHide, exHidden], attached := true, parentSize := 300 }

/-- A container with one collapsed and one expanded part, used with an
explicit zero weight. -/
def exC10C : ContainerState :=
  { id := "c", orientation := .vertical, opts := exOpts,
    parts := [exPart "a" true false 22 0 none {}, exPart "b" false false 100 0 none {}],
    attached := true, parentSize := 200 }

/-- A container whose sole expanded visible part is about to expand. -/
def exC7C : ContainerState :=
  { id := "c", orientation := .vertical, opts := exOpts,
    parts := [exPart "a" false false 50 10 (some 130) {}, exPart "b" true false 22 0 none {}],
    attached := true, parentSize := 300 }

/-! ### Helper lemmas -/

theorem setCollapsed_hidden (o : SplitOrientation) (p : PartState) (c : Bool) :
    (setCollapsed o p c).hidden = p.hidden := by
  unfold setCollapsed; split <;> rfl

theorem setCollapsed_partId (o : SplitOrientation) (p : PartState) (c : Bool) :
    (setCollapsed o p c).partId = p.partId := by
  unfold setCollapsed; split <;> rfl

theorem setCollapsed_wrappedId (o : SplitOrientation) (p : PartState) (c : Bool) :
    (setCollapsed o p c).wrappedId = p.wrappedId := by
  unfold setCollapsed; split <;> rfl

theorem setCollapsed_options (o : SplitOrientation) (p : PartState) (c : Bool) :
    (setCollapsed o p c).options = p.options := by
  unfold setCollapsed; split <;> rfl

theorem setCollapsed_false_collapsed (o : SplitOrientation) (p : PartState) :
    (setCollapsed o p false).collapsed = false := by
  unfold setCollapsed
  rcases hc : p.collapsed <;> simp [hc]

theorem setCollapsed_horizontal_true (p : PartState) :
    setCollapsed .horizontal p true = p := by
  unfold setCollapsed
  simp

theorem setCollapsed_keeps_false (o : SplitOrientation) (p : PartState) (c : Bool)
    (h : p.collapsed = false) (hc : o = .horizontal ∨ c = false) :
    (setCollapsed o p c).collapsed = false := by
  rcases c
  · exact setCollapsed_false_collapsed o p
  · rcases hc with hc | hc
    · subst hc; rw [setCollapsed_horizontal_true]; exact h
    · cases hc

theorem setHidden_partId (p : PartState) (h : Bool) : (setHidden p h).partId = p.partId := rfl

theorem setHidden_collapsed (p : PartState) (h : Bool) : (setHidden p h).collapsed = p.collapsed := rfl

theorem setHidden_options (p : PartState) (h : Bool) : (setHidden p h).options = p.options := rfl

theorem setHidden_hidden (p : PartState) (h : Bool) : (setHidden p h).hidden = h := rfl

theorem makePart_wrappedId (cid w pid : String) (o : WidgetOptions) :
    (makePart cid w pid o).wrappedId = w := by
  simp only [makePart]
  split <;> simp [setHidden, setCollapsed_wrappedId]

theorem findIdx?_some_spec {α : Type _} (p : α → Bool) :
    ∀ (l : List α) (i j : Nat), List.findIdx? p l i = some j →
      i ≤ j ∧ j - i < l.length ∧
      (∀ (h : j - i < l.length), p (l[j - i]) = true) ∧
      (∀ (t : Nat) (ht : t < l.length), i + t < j → p (l[t]) = false)
  | [], i, j, h => by simp [List.findIdx?_nil] at h
  | x :: xs, i, j, h => by
    rw [List.findIdx?_cons] at h
    by_cases hx : p x = true
    · rw [if_pos hx] at h
      injection h with h
      subst h
      refine ⟨le_refl i, by simp, ?_, ?_⟩
      · intro _; simpa using hx
      · intro t ht hlt; omega
    · rw [if_neg hx] at h
      obtain ⟨h1, h2, h3, h4⟩ := findIdx?_some_spec p xs (i + 1) j h
      refine ⟨by omega, by simp; omega, ?_, ?_⟩
      · intro hlen
        have hji : j - i = (j - (i + 1)) + 1 := by omega
        simp only [hji, List.getElem_cons_succ]
        exact h3 (by simp at hlen; omega)
      · intro t ht hlt
        rcases t with _ | t
        · simpa using (Bool.eq_false_iff.mpr hx)
        · rw [List.getElem_cons_succ]
          exact h4 t (by simpa using ht) (by omega)

theorem findIdx?_none_spec {α : Type _} (p : α → Bool) :
    ∀ (l : List α) (i : Nat), List.findIdx? p l i = none →
      ∀ (t : Nat) (ht : t < l.length), p (l[t]) = false
  | [], i, _, t, ht => by simp at ht
  | x :: xs, i, h, t, ht => by
    rw [List.findIdx?_cons] at h
    by_cases hx : p x = true
    · rw [if_pos hx] at h; cases h
    · rw [if_neg hx] at h
      rcases t with _ | t
      · simpa using (Bool.eq_false_iff.mpr hx)
      · rw [List.getElem_cons_succ]
        exact findIdx?_none_spec p xs (i + 1) h t (by simp at ht; omega)

theorem insertIdx_length_self {α : Type _} (l : List α) (a : α) :
    l.insertIdx l.length a = l ++ [a] := by
  induction l with
  | nil => rfl
  | cons x xs ih => simp [List.insertIdx_succ_cons, ih]

/-! ### C3 -/

/-- C3: the collapsed flag is never true while the orientation is horizontal.
Requesting `collapsed = true` in horizontal orientation is a silent no-op, and
attaching with resolved horizontal orientation forces every collapsed flag to
false; from then on any sequence of collapse requests routed through the
setter leaves every flag false. -/
theorem collapsed_never_true_in_horizontal :
    (∀ p : PartState, setCollapsed .horizontal p true = p) ∧
    (∀ (cs : ContainerState) (ops : List (Nat × Bool)),
      ∀ q ∈ (ops.foldl (fun s op => setPartCollapsed s op.1 op.2) (onAfterAttach cs .horizontal)).parts,
        q.collapsed = false) := by
  constructor
  · exact setCollapsed_horizontal_true
  · have key : ∀ (ops : List (Nat × Bool)) (s : ContainerState),
        s.orientation = .horizontal → (∀ q ∈ s.parts, q.collapsed = false) →
        ∀ q ∈ (ops.foldl (fun s op => setPartCollapsed s op.1 op.2) s).parts, q.collapsed = false := by
      intro ops
      induction ops with
      | nil => intro s _ h2; simpa using h2
      | cons op rest ih =>
        intro s h1 h2
        rw [List.foldl_cons]
        apply ih
        · unfold setPartCollapsed
          cases hg : s.parts[op.1]? <;> simp [h1]
        · intro q hq
          unfold setPartCollapsed at hq
          cases hg : s.parts[op.1]? with
          | none => rw [hg] at hq; exact h2 q hq
          | some p =>
            rw [hg] at hq
            simp only at hq
            rcases List.mem_or_eq_of_mem_set hq with hmem | heq
            · exact h2 q hmem
            · subst heq
              rw [h1]
              obtain ⟨hlt, hpe⟩ := List.getElem?_eq_some.mp hg
              exact setCollapsed_keeps_false _ p op.2
                (h2 p (hpe ▸ List.getElem_mem hlt)) (Or.inl rfl)
    intro cs ops
    apply key
    · unfold onAfterAttach
      simp
    · intro q hq
      unfold onAfterAttach at hq
      simp only [beq_self_eq_true, if_pos] at hq
      rw [List.mem_map] at hq
      obtain ⟨p, _, hp⟩ := hq
      rw [← hp]
      exact setCollapsed_false_collapsed _ p

/-- Witness for C3: the first part of a concrete container, after attaching
horizontally and then requesting collapse, is not collapsed. -/
theorem collapsed_never_true_in_horizontal_witness :
    (((([((0 : Nat), true), ((1 : Nat), true)]).foldl (fun s op => setPartCollapsed s op.1 op.2)
      (onAfterAttach ex3 .horizontal)).parts).headI).collapsed = false := by
  apply collapsed_never_true_in_horizontal.2 ex3 [((0 : Nat), true), ((1 : Nat), true)]
  decide

/-! ### C7 -/

/-- C7: for an expand animation in `updateCollapsed`, the target full size is
the larger of the retained uncollapsed size minus the header height and the
minimum content size, and when the expanding part is the only expanded visible
part the target is additionally stretched to at least the full currently
available size. -/
theorem updateCollapsed_expand_fullSize (cs : ContainerState) (i : Nat) (part : PartState) (u : ℚ)
    (hget : cs.parts[i]? = some part)
    (hhid : part.hidden = false) (hcol : part.collapsed = false)
    (hdur : 0 < cs.opts.animationDuration)
    (hu : part.uncollapsedSize = some u) (hu0 : u ≠ 0) :
    (updateCollapsed cs i true).2 =
      some (.expand,
        if (cs.parts.filter (fun w => !w.collapsed && !w.hidden)).length == 1 then
          max (max (u - cs.opts.headerSize) part.minSize) (getAvailableSize cs)
        else max (u - cs.opts.headerSize) part.minSize) ∧
    ((cs.parts.filter (fun w => !w.collapsed && !w.hidden)).length = 1 →
      ∃ F, (updateCollapsed cs i true).2 = some (.expand, F) ∧ getAvailableSize cs ≤ F) := by
  have hmain : (updateCollapsed cs i true).2 =
      some (.expand,
        if (cs.parts.filter (fun w => !w.collapsed && !w.hidden)).length == 1 then
          max (max (u - cs.opts.headerSize) part.minSize) (getAvailableSize cs)
        else max (u - cs.opts.headerSize) part.minSize) := by
    unfold updateCollapsed
    rw [hget]
    simp only [hhid, hcol, hu, Bool.false_and, Bool.not_true, Bool.false_or,
      Bool.false_eq_true, if_neg, if_false, not_lt.mpr, jsOr]
    rw [if_neg (by simp [not_le, hdur])]
    simp [jsOr, hu0]
  refine ⟨hmain, ?_⟩
  intro h1
  refine ⟨max (max (u - cs.opts.headerSize) part.minSize) (getAvailableSize cs), ?_, le_max_right _ _⟩
  rw [hmain, if_pos (by simp [h1])]

/-- Witness for C7: in the concrete container whose only expanded visible part
(retained size 130, minimum 10) expands, the animation target is the full
available size 254. -/
theorem updateCollapsed_expand_fullSize_witness :
    (updateCollapsed exC7C 0 true).2 = some (.expand, 254) := by
  have h := updateCollapsed_expand_fullSize exC7C 0 (exPart "a" false false 50 10 (some 130) {})
    130 (by decide) (by decide) (by decide) (by decide) (by decide) (by decide)
  rw [h.1]
  norm_num [exC7C, exPart, exOpts, getAvailableSize, max_def]
  simp only [show (SplitOrientation.vertical = SplitOrientation.horizontal) = False from by simp,
    if_false]
  norm_num

/-! ### C9 -/

/-- C9: executing the visibility-toggle command of a hidden part that allows
hiding makes it visible and resets its collapsed flag to false. -/
theorem toggleVisibility_command_unhides (cs : ContainerState) (i : Nat) (p : PartState)
    (hfind : cs.parts.findIdx? (fun q => q.id == p.id) = some i)
    (hget : cs.parts[i]? = some p)
    (hhid : p.hidden = true) (hch : p.canHide = true) :
    ∃ q, (toggleVisibilityCommand cs p.id).parts[i]? = some q ∧
      q.hidden = false ∧ q.collapsed = false := by
  have hlt : i < cs.parts.length := by
    rcases List.getElem?_eq_some.mp hget with ⟨h, _⟩
    exact h
  refine ⟨toggleVisibility cs.orientation p, ?_, ?_, ?_⟩
  · unfold toggleVisibilityCommand
    rw [hfind]
    dsimp only
    rw [hget]
    dsimp only
    exact List.getElem?_set_self hlt
  · unfold toggleVisibility
    rw [hch]
    simp only [if_pos]
    rw [setHidden_hidden, hhid]
    simp [setCollapsed_hidden, setHidden_hidden]
  · unfold toggleVisibility
    rw [hch]
    simp only [if_pos]
    rw [setHidden_hidden, hhid]
    simp [setCollapsed_false_collapsed]

/-- Witness for C9: toggling the hidden part of the concrete two-part
container makes it visible and expanded. -/
theorem toggleVisibility_command_unhides_witness :
    ∃ q, (toggleVisibilityCommand exMix exHidden.id).parts[1]? = some q ∧
      q.hidden = false ∧ q.collapsed = false :=
  toggleVisibility_command_unhides exMix 1 exHidden (by decide) (by decide) (by decide) (by decide)

/-! ### C4 -/

/-- C4: a second `addWidget` with an already-wrapped widget id is a no-op that
returns the inert null disposable and leaves the container state (hence the
live part count) unchanged, and `addWidget` preserves the invariant that no
two live parts share a wrapped-widget id. -/
theorem addWidget_duplicate_noop (cs : ContainerState) (w : String) (d : Option String)
    (o : WidgetOptions) :
    ((∃ p ∈ cs.parts, p.wrappedId = w) → addWidget cs w d o = (cs, false)) ∧
    (cs.parts.Pairwise (fun a b => a.wrappedId ≠ b.wrappedId) →
      (addWidget cs w d o).1.parts.Pairwise (fun a b => a.wrappedId ≠ b.wrappedId)) := by
  have hsymm : ∀ {x y : PartState}, x.wrappedId ≠ y.wrappedId → y.wrappedId ≠ x.wrappedId :=
    fun h => Ne.symm h
  constructor
  · rintro ⟨p, hp, hw⟩
    unfold addWidget
    rw [if_pos (List.any_eq_true.mpr ⟨p, hp, by simp [hw]⟩)]
  · intro hpw
    by_cases hdup : cs.parts.any (fun p => p.wrappedId == w) = true
    · unfold addWidget
      rw [if_pos hdup]
      exact hpw
    · have hnotin : ∀ p ∈ cs.parts, p.wrappedId ≠ w := by
        intro p hp heq
        exact hdup (List.any_eq_true.mpr ⟨p, hp, by simp [heq]⟩)
      have hnew : (makePart cs.id w (d.getD w) o).wrappedId = w := makePart_wrappedId ..
      have hcons : (makePart cs.id w (d.getD w) o :: cs.parts).Pairwise
          (fun a b => a.wrappedId ≠ b.wrappedId) := by
        rw [List.pairwise_cons]
        exact ⟨fun q hq => by rw [hnew]; exact fun he => hnotin q hq he.symm, hpw⟩
      unfold addWidget
      rw [if_neg hdup]
      rcases horder : o.order with _ | k
      · exact ((List.perm_append_singleton _ _).pairwise_iff hsymm).mpr hcons
      · dsimp only
        rcases hfi : cs.parts.findIdx? (fun p =>
            match p.options.order with
            | none => true
            | some x => decide (k < x)) with _ | index
        · rw [hfi]
          exact ((List.perm_append_singleton _ _).pairwise_iff hsymm).mpr hcons
        · rw [hfi]
          obtain ⟨-, hlt, -, -⟩ := findIdx?_some_spec _ cs.parts 0 index hfi
          rw [Nat.sub_zero] at hlt
          exact ((List.perm_insertIdx _ _ (le_of_lt hlt)).pairwise_iff hsymm).mpr hcons

/-- Witness for C4: adding widget id `a` to the concrete three-part container
(which already wraps `a`) changes nothing and keeps wrapped ids unique. -/
theorem addWidget_duplicate_noop_witness :
    addWidget ex3 "a" none {} = (ex3, false) ∧
    (addWidget ex3 "a" none {}).1.parts.Pairwise (fun a b => a.wrappedId ≠ b.wrappedId) := by
  have h := addWidget_duplicate_noop ex3 "a" none {}
  exact ⟨h.1 ⟨exPart "a" false false 522 0 none {}, by decide, by decide⟩, h.2 (by decide)⟩

/-! ### C5 -/

/-- C5: `addWidget` with `order = k` (and a not-yet-wrapped widget) inserts the
new part immediately before the first existing part whose order is undefined
or greater than `k`; when no such part exists, the new part is appended. -/
theorem addWidget_order_insertion (cs : ContainerState) (w : String) (d : Option String)
    (o : WidgetOptions) (k : ℚ)
    (hdup : ∀ p ∈ cs.parts, p.wrappedId ≠ w)
    (horder : o.order = some k) :
    ∃ i, i ≤ cs.parts.length ∧
      (addWidget cs w d o).1.parts = cs.parts.insertIdx i (makePart cs.id w (d.getD w) o) ∧
      (∀ (t : Nat) (ht : t < cs.parts.length), t < i →
        ∃ x, (cs.parts[t]).options.order = some x ∧ x ≤ k) ∧
      (∀ (hi : i < cs.parts.length),
        (cs.parts[i]).options.order = none ∨
          ∃ x, (cs.parts[i]).options.order = some x ∧ k < x) := by
  have hany : ¬ cs.parts.any (fun p => p.wrappedId == w) = true := by
    intro hc
    obtain ⟨p, hp, he⟩ := List.any_eq_true.mp hc
    exact hdup p hp (by simpa using he)
  have hparts : (addWidget cs w d o).1.parts =
      (match cs.parts.findIdx? (fun p =>
          match p.options.order with
          | none => true
          | some x => decide (k < x)) with
       | some index => cs.parts.insertIdx index (makePart cs.id w (d.getD w) o)
       | none => cs.parts ++ [makePart cs.id w (d.getD w) o]) := by
    unfold addWidget
    rw [if_neg hany, horder]
  rcases hfi : cs.parts.findIdx? (fun p =>
      match p.options.order with
      | none => true
      | some x => decide (k < x)) with _ | index
  · rw [hfi] at hparts
    dsimp only at hparts
    have hall := findIdx?_none_spec _ cs.parts 0 hfi
    refine ⟨cs.parts.length, le_refl _, ?_, ?_, ?_⟩
    · rw [insertIdx_length_self]
      exact hparts
    · intro t ht _
      have hpf := hall t ht
      rcases hx : (cs.parts[t]).options.order with _ | x
      · rw [hx] at hpf; simp at hpf
      · rw [hx] at hpf
        simp only [decide_eq_false_iff_not] at hpf
        exact ⟨x, rfl, le_of_not_lt hpf⟩
    · intro hi
      omega
  · rw [hfi] at hparts
    dsimp only at hparts
    obtain ⟨-, hlt, hat, hbefore⟩ := findIdx?_some_spec _ cs.parts 0 index hfi
    rw [Nat.sub_zero] at hlt hat
    refine ⟨index, le_of_lt hlt, hparts, ?_, ?_⟩
    · intro t ht hti
      have hpf := hbefore t ht (by omega)
      rcases hx : (cs.parts[t]).options.order with _ | x
      · rw [hx] at hpf; simp at hpf
      · rw [hx] at hpf
        simp only [decide_eq_false_iff_not] at hpf
        exact ⟨x, rfl, le_of_not_lt hpf⟩
    · intro hi
      have hpt := hat hlt
      rcases hx : (cs.parts[index]).options.order with _ | x
      · exact Or.inl rfl
      · rw [hx] at hpt
        simp only [decide_eq_true_eq] at hpt
        exact Or.inr ⟨x, rfl, hpt⟩

/-- Witness for C5: adding a widget with order 5 to the concrete two-part
container (whose parts both have undefined order) inserts it at index 0. -/
theorem addWidget_order_insertion_witness :
    ∃ i, i ≤ exMix.parts.length ∧
      (addWidget exMix "z" none { order := some 5 }).1.parts =
        exMix.parts.insertIdx i (makePart exMix.id "z" ((none : Option String).getD "z") { order := some 5 }) ∧
      (∀ (t : Nat) (ht : t < exMix.parts.length), t < i →
        ∃ x, (exMix.parts[t]).options.order = some x ∧ x ≤ 5) ∧
      (∀ (hi : i < exMix.parts.length),
        (exMix.parts[i]).options.order = none ∨
          ∃ x, (exMix.parts[i]).options.order = some x ∧ (5 : ℚ) < x) :=
  addWidget_order_insertion exMix "z" none { order := some 5 } 5 (by decide) rfl

/-! ### Structure lemmas about setPartSizes -/

theorem setPartSizesLoop_parts (o : SplitOrientation) (hS sp tW aW aS : ℚ) :
    ∀ (pairs : List (PartState × Option ℚ)) (pos : ℚ) (idx : Nat),
      (setPartSizesLoop o hS sp tW aW aS pairs pos idx).1 =
        pairs.map (fun pw =>
          if !pw.1.hidden && pw.1.collapsed && qTruthy pw.2 then
            { pw.1 with uncollapsedSize := some (pw.2.getD 0 / tW * aS) }
          else pw.1)
  | [], _, _ => rfl
  | (part, weight) :: rest, pos, idx => by
    rw [setPartSizesLoop]
    by_cases hh : part.hidden
    · simp only [hh, if_pos, List.map_cons, Bool.not_true, Bool.false_and]
      simp [setPartSizesLoop_parts o hS sp tW aW aS rest pos (idx + 1)]
    · by_cases hc : part.collapsed
      · by_cases hq : qTruthy weight
        · simp [hh, hc, hq, setPartSizesLoop_parts o hS sp tW aW aS rest _ (idx + 1)]
        · simp [hh, hc, hq, setPartSizesLoop_parts o hS sp tW aW aS rest _ (idx + 1)]
      · simp [hh, hc, setPartSizesLoop_parts o hS sp tW aW aS rest _ (idx + 1)]

theorem map_fst_zip_take {α β : Type _} :
    ∀ (l1 : List α) (l2 : List β), (l1.zip l2).map Prod.fst = l1.take l2.length
  | [], _ => by simp
  | _ :: _, [] => by simp
  | a :: l1, b :: l2 => by simp [map_fst_zip_take l1 l2]

theorem eraseUSize_loopStep (tW aS : ℚ) (pw : PartState × Option ℚ) :
    eraseUSize (if !pw.1.hidden && pw.1.collapsed && qTruthy pw.2 then
      { pw.1 with uncollapsedSize := some (pw.2.getD 0 / tW * aS) } else pw.1) =
      eraseUSize pw.1 := by
  split <;> rfl

/-- Applying `setPartSizes` changes parts only in their `uncollapsedSize` field. -/
theorem setPartSizes_parts_eraseUSize (cs : ContainerState) (ws : List (Option ℚ)) :
    (setPartSizes cs ws).1.parts.map eraseUSize = cs.parts.map eraseUSize := by
  unfold setPartSizes
  dsimp only
  split
  · rfl
  · dsimp only
    rw [setPartSizesLoop_parts]
    rw [List.map_append, List.map_map]
    simp only [Function.comp_def, eraseUSize_loopStep]
    have h2 : (cs.parts.dropLast.zip ws).map (fun pw => eraseUSize pw.1) =
        ((cs.parts.dropLast.zip ws).map Prod.fst).map eraseUSize := by
      rw [List.map_map]; rfl
    rw [h2, map_fst_zip_take, List.length_zip, List.length_dropLast,
      List.dropLast_eq_take, List.take_take]
    have hmm : ws.length ⊓ (cs.parts.length - 1) = (cs.parts.length - 1) ⊓ ws.length := by
      omega
    rw [hmm]
    conv_rhs => rw [← List.take_append_drop ((cs.parts.length - 1) ⊓ ws.length) cs.parts]
    rw [List.map_append]

/-- Applying `setPartSizes` preserves the persistence key and both flags of every part,
in order. -/
theorem setPartSizes_parts_flags (cs : ContainerState) (ws : List (Option ℚ)) :
    (setPartSizes cs ws).1.parts.map flagsOf = cs.parts.map flagsOf := by
  have h := setPartSizes_parts_eraseUSize cs ws
  have hf : ∀ (l : List PartState), l.map flagsOf = (l.map eraseUSize).map flagsOf := by
    intro l
    rw [List.map_map]
    rfl
  rw [hf, h, ← hf]

/-! ### Membership preservation through the restore reorder loop -/

theorem mem_moveWidget (l : List PartState) (i j : Nat) (hj : j < l.length)
    (q : PartState) (h : q ∈ l) : q ∈ moveWidget l i j := by
  unfold moveWidget
  cases hg : l[i]? with
  | none => exact h
  | some x =>
    have hlt : i < l.length := (List.getElem?_eq_some.mp hg).1
    have hxe : l[i] = x := (List.getElem?_eq_some.mp hg).2
    have hsplit : q ∈ l.eraseIdx i ∨ q = x := by
      conv at h => rw [← List.take_append_drop i l]
      rw [List.mem_append] at h
      rcases h with h | h
      · exact Or.inl (by rw [List.eraseIdx_eq_take_drop_succ, List.mem_append]; exact Or.inl h)
      · rw [List.drop_eq_getElem_cons hlt, hxe, List.mem_cons] at h
        rcases h with h | h
        · exact Or.inr h
        · exact Or.inl (by rw [List.eraseIdx_eq_take_drop_succ, List.mem_append]; exact Or.inr h)
    have hjlen : j ≤ (l.eraseIdx i).length := by
      rw [List.length_eraseIdx]
      simp [hlt]
      omega
    rw [List.mem_insertIdx hjlen]
    rcases hsplit with h | h
    · exact Or.inr h
    · exact Or.inl h

theorem mem_restoreReorder :
    ∀ (sts : List PartStoredState) (l : List PartState) (k : Nat) (q : PartState),
      q ∈ l → q ∈ restoreReorder l sts k
  | [], l, k, q, h => h
  | s :: rest, l, k, q, h => by
    rw [restoreReorder]
    apply mem_restoreReorder rest
    cases hfi : l.findIdx? (fun p => p.partId == s.partId) with
    | none => exact h
    | some ci =>
      dsimp only
      split
      · apply mem_moveWidget
        · obtain ⟨-, hlt, -, -⟩ := findIdx?_some_spec _ l 0 ci hfi
          omega
        · exact h
      · exact h

/-! ### Field lemmas about the restore flag phase -/

theorem setCollapsed_canHide (o : SplitOrientation) (p : PartState) (c : Bool) :
    (setCollapsed o p c).canHide = p.canHide := by
  unfold PartState.canHide
  rw [setCollapsed_options]

theorem setHidden_canHide (p : PartState) (h : Bool) :
    (setHidden p h).canHide = p.canHide := rfl

theorem applyStoredFlags_partId (o : SplitOrientation) (sts : List PartStoredState)
    (p : PartState) : (applyStoredFlags o sts p).partId = p.partId := by
  unfold applyStoredFlags
  cases hf : sts.find? (fun s => p.partId == s.partId) with
  | none => dsimp only; split <;> simp [setHidden_partId]
  | some s => dsimp only; split <;> simp [setHidden_partId, setCollapsed_partId]

theorem applyStoredFlags_hidden_of_not_canHide (o : SplitOrientation)
    (sts : List PartStoredState) (p : PartState) (h : p.canHide = false) :
    (applyStoredFlags o sts p).hidden = p.hidden := by
  unfold applyStoredFlags
  cases hf : sts.find? (fun s => p.partId == s.partId) with
  | none =>
    dsimp only
    rw [if_neg (by simp [h])]
  | some s =>
    dsimp only
    rw [if_neg (by simp [setCollapsed_canHide, h])]
    exact setCollapsed_hidden _ _ _

/-! ### C8 -/

/-- C8: no container-level hiding operation ever hides a part whose `canHide`
is false: the global hide-under-cursor command leaves it untouched, the
per-part visibility toggle is a no-op on it, and `restoreState` preserves its
hidden flag. -/
theorem canHide_false_never_hidden (cs : ContainerState) :
    (∀ (r : Option String) (j : Nat) (p : PartState),
      cs.parts[j]? = some p → p.canHide = false →
      (globalHideExecute cs r).parts[j]? = some p) ∧
    (∀ p : PartState, p.canHide = false → toggleVisibility cs.orientation p = p) ∧
    (∀ (stored : List PartStoredState) (p : PartState), p ∈ cs.parts → p.canHide = false →
      ∃ q ∈ (restoreState cs stored).parts, q.partId = p.partId ∧ q.hidden = p.hidden) := by
  refine ⟨?_, ?_, ?_⟩
  · intro r j p hget hch
    unfold globalHideExecute
    cases r with
    | none => exact hget
    | some tid =>
      dsimp only
      cases hfi : cs.parts.findIdx? (fun q => q.id == tid) with
      | none => exact hget
      | some idx =>
        dsimp only
        cases hg : cs.parts[idx]? with
        | none => exact hget
        | some pt =>
          dsimp only
          by_cases hch2 : pt.canHide = true
          · rw [if_pos hch2]
            dsimp only
            by_cases hij : idx = j
            · subst hij
              rw [hg] at hget
              injection hget with hget
              subst hget
              rw [hch] at hch2
              cases hch2
            · rw [List.getElem?_set]
              rw [if_neg hij]
              exact hget
          · rw [if_neg hch2]
            exact hget
  · intro p h
    unfold toggleVisibility
    rw [if_neg (by simp [h])]
  · intro stored p hp hch
    have h1 : p ∈ restoreReorder cs.parts
        (stored.filter (fun s => cs.parts.any (fun q => q.partId == s.partId))) 0 :=
      mem_restoreReorder _ _ _ _ hp
    have h2 : applyStoredFlags cs.orientation
          (stored.filter (fun s => cs.parts.any (fun q => q.partId == s.partId))) p ∈
        (restoreReorder cs.parts
          (stored.filter (fun s => cs.parts.any (fun q => q.partId == s.partId))) 0).map
          (applyStoredFlags cs.orientation
            (stored.filter (fun s => cs.parts.any (fun q => q.partId == s.partId)))) :=
      List.mem_map.mpr ⟨p, h1, rfl⟩
    have hfl : (restoreState cs stored).parts.map eraseUSize =
        ((restoreReorder cs.parts
          (stored.filter (fun s => cs.parts.any (fun q => q.partId == s.partId))) 0).map
          (applyStoredFlags cs.orientation
            (stored.filter (fun s => cs.parts.any (fun q => q.partId == s.partId))))).map
          eraseUSize :=
      setPartSizes_parts_eraseUSize _ _
    have h3 : eraseUSize (applyStoredFlags cs.orientation
          (stored.filter (fun s => cs.parts.any (fun q => q.partId == s.partId))) p) ∈
        (restoreState cs stored).parts.map eraseUSize := by
      rw [hfl]
      exact List.mem_map.mpr ⟨_, h2, rfl⟩
    obtain ⟨q, hq, hqe⟩ := List.mem_map.mp h3
    refine ⟨q, hq, ?_, ?_⟩
    · have := congrArg PartState.partId hqe
      simpa [eraseUSize, applyStoredFlags_partId] using this
    · have := congrArg PartState.hidden hqe
      simp only [eraseUSize] at this
      rw [this, applyStoredFlags_hidden_of_not_canHide _ _ _ hch]

/-- Witness for C8: in the concrete two-part container the part that refuses
hiding survives the global hide command, the visibility toggle and a state
restoration unchanged in its hidden flag. -/
theorem canHide_false_never_hidden_witness :
    (globalHideExecute exMix (some exNoHide.id)).parts[0]? = some exNoHide ∧
    toggleVisibility exMix.orientation exNoHide = exNoHide ∧
    ∃ q ∈ (restoreState exMix []).parts, q.partId = exNoHide.partId ∧ q.hidden = exNoHide.hidden := by
  have h := canHide_false_never_hidden exMix
  exact ⟨h.1 (some exNoHide.id) 0 exNoHide (by decide) (by decide),
    h.2.1 exNoHide (by decide), h.2.2 [] exNoHide (by decide) (by decide)⟩

/-! ### C10 -/

theorem qTruthy_normWeight (w : Option ℚ) : qTruthy (normWeight w) = qTruthy w := by
  cases w with
  | none => rfl
  | some x =>
    by_cases hx : x = 0 <;> simp [normWeight, qTruthy, hx]

theorem jsOr_normWeight (w : Option ℚ) (d : ℚ) : jsOr (normWeight w) d = jsOr w d := by
  cases w with
  | none => rfl
  | some x =>
    by_cases hx : x = 0 <;> simp [normWeight, jsOr, hx]

theorem normWeight_getD_of_qTruthy (w : Option ℚ) (h : qTruthy w = true) :
    (normWeight w).getD 0 = w.getD 0 := by
  cases w with
  | none => rfl
  | some x =>
    simp only [qTruthy, bne_iff_ne, ne_eq] at h
    simp [normWeight, h]

theorem setPartSizesLoop_normWeight (o : SplitOrientation) (hS sp tW aW aS : ℚ) :
    ∀ (pairs : List (PartState × Option ℚ)) (pos : ℚ) (idx : Nat),
      setPartSizesLoop o hS sp tW aW aS (pairs.map (Prod.map id normWeight)) pos idx =
        setPartSizesLoop o hS sp tW aW aS pairs pos idx
  | [], _, _ => rfl
  | (part, weight) :: rest, pos, idx => by
    have ih := fun (pos : ℚ) => setPartSizesLoop_normWeight o hS sp tW aW aS rest pos (idx + 1)
    rw [List.map_cons]
    by_cases hh : part.hidden
    · simp [setPartSizesLoop, hh, Prod.map, ih]
    · by_cases hc : part.collapsed
      · by_cases hq : qTruthy weight
        · have h1 : qTruthy (normWeight weight) = true := by rw [qTruthy_normWeight]; exact hq
          simp [setPartSizesLoop, hh, hc, hq, h1, Prod.map,
            normWeight_getD_of_qTruthy weight hq, ih]
        · have h1 : qTruthy (normWeight weight) = false := by
            rw [qTruthy_normWeight]; simpa using hq
          simp [setPartSizesLoop, hh, hc, hq, h1, Prod.map, ih]
      · simp [setPartSizesLoop, hh, hc, Prod.map, jsOr_normWeight, ih]

theorem setPartSizes_normWeight (cs : ContainerState) (ws : List (Option ℚ)) :
    setPartSizes cs (ws.map normWeight) = setPartSizes cs ws := by
  have hf : ((fun pw : PartState × Option ℚ =>
        if qTruthy pw.2 && !pw.1.hidden && !pw.1.collapsed then pw.2.getD 0 else 0) ∘
        Prod.map id normWeight) =
      (fun pw : PartState × Option ℚ =>
        if qTruthy pw.2 && !pw.1.hidden && !pw.1.collapsed then pw.2.getD 0 else 0) := by
    funext pw
    simp only [Function.comp_apply, Prod.map, id]
    by_cases hq : qTruthy pw.2 = true
    · rcases hrest : (!pw.1.hidden && !pw.1.collapsed) with _ | _
      · simp [qTruthy_normWeight, hq, hrest]
      · simp [qTruthy_normWeight, hq, hrest, normWeight_getD_of_qTruthy pw.2 hq]
    · simp [qTruthy_normWeight, hq]
  have hpred1 : ((fun pw : PartState × Option ℚ =>
        qTruthy pw.2 && !pw.1.hidden && !pw.1.collapsed) ∘ Prod.map id normWeight) =
      (fun pw : PartState × Option ℚ => qTruthy pw.2 && !pw.1.hidden && !pw.1.collapsed) := by
    funext pw
    simp [Prod.map, qTruthy_normWeight]
  have hpred2 : ((fun pw : PartState × Option ℚ =>
        !qTruthy pw.2 && !pw.1.hidden && !pw.1.collapsed) ∘ Prod.map id normWeight) =
      (fun pw : PartState × Option ℚ => !qTruthy pw.2 && !pw.1.hidden && !pw.1.collapsed) := by
    funext pw
    simp [Prod.map, qTruthy_normWeight]
  unfold setPartSizes
  simp only [List.zip_map_right, List.map_map, List.filter_map, List.length_map, hf, hpred1,
    hpred2, setPartSizesLoop_normWeight]

/-- C10: in `setPartSizes` an explicit weight of `0` behaves exactly like an
absent weight (it is not summed, not counted, and replaced by the average
weight), and in particular a collapsed visible part with weight `0` keeps its
`uncollapsedSize` and is returned unchanged. -/
theorem setPartSizes_zero_weight_like_absent (cs : ContainerState) (ws : List (Option ℚ)) :
    setPartSizes cs (ws.map normWeight) = setPartSizes cs ws ∧
    (∀ (i : Nat) (p : PartState), cs.parts[i]? = some p → p.collapsed = true →
      ws[i]? = some (some 0) → (setPartSizes cs ws).1.parts[i]? = some p) := by
  refine ⟨setPartSizes_normWeight cs ws, ?_⟩
  intro i p hget hcol hw
  unfold setPartSizes
  dsimp only
  split
  · exact hget
  · dsimp only
    rw [setPartSizesLoop_parts, List.getElem?_append, List.length_map]
    by_cases hik : i < (cs.parts.dropLast.zip ws).length
    · rw [if_pos hik]
      rw [List.getElem?_map]
      have hiw : i < ws.length := by
        rw [List.length_zip] at hik
        omega
      have hip : i < cs.parts.dropLast.length := by
        rw [List.length_zip] at hik
        omega
      have hipn : i < cs.parts.length := by
        have := List.length_dropLast cs.parts
        omega
      have hpe : (cs.parts.dropLast.zip ws)[i]? = some (cs.parts[i], ws[i]) := by
        rw [List.getElem?_eq_getElem hik]
        congr 1
        rw [List.getElem_zip]
        congr 1
        exact List.getElem_dropLast cs.parts i hip
      rw [hpe]
      have hpp : cs.parts[i] = p := by
        have := List.getElem?_eq_some.mp hget
        exact this.2
      have hww : ws[i] = some 0 := by
        have := List.getElem?_eq_some.mp hw
        exact this.2
      rw [hpp, hww]
      simp [qTruthy]
    · rw [if_neg hik]
      rw [List.getElem?_drop]
      have : (cs.parts.dropLast.zip ws).length + (i - (cs.parts.dropLast.zip ws).length) = i := by
        omega
      rw [this]
      exact hget

/-- Witness for C10: in the concrete container with a collapsed part carrying
explicit weight `0`, normalizing the weight list changes nothing and the
collapsed part is returned unchanged. -/
theorem setPartSizes_zero_weight_like_absent_witness :
    setPartSizes exC10C ([some 0, some 1].map normWeight) = setPartSizes exC10C [some 0, some 1] ∧
    (setPartSizes exC10C [some 0, some 1]).1.parts[0]? = some (exPart "a" true false 22 0 none {}) := by
  have h := setPartSizes_zero_weight_like_absent exC10C [some 0, some 1]
  exact ⟨h.1, h.2 0 (exPart "a" true false 22 0 none {}) (by decide) (by decide) (by decide)⟩

/-! ### C1 helper lemmas -/

theorem ite_lt_eq_max (c m : ℚ) : (if c < m then m else c) = max c m := by
  rcases le_or_lt m c with h | h
  · rw [if_neg (not_lt.mpr h), max_eq_left h]
  · rw [if_pos h, max_eq_right (le_of_lt h)]

theorem accumHandlePos_eq_sum (opts : LayoutOptions) (size : Nat → ℚ) :
    ∀ i, accumHandlePos opts size i =
      (i + 1 : ℚ) * opts.headerSize + ((List.range (i + 1)).map size).sum + (i : ℚ) * opts.spacing
  | 0 => by
    simp [accumHandlePos, List.range_succ]
  | i + 1 => by
    rw [accumHandlePos, accumHandlePos_eq_sum opts size i]
    rw [List.range_succ, List.map_append, List.sum_append]
    push_cast
    simp [List.range_succ]
    ring

/-- The handle positions issued by the loop when every processed part is
visible, expanded and carries a truthy weight: handle `idx + j` sits at the
accumulated position of the first `j + 1` processed parts. -/
theorem setPartSizesLoop_handles_expanded (hS sp tW aW aS : ℚ) :
    ∀ (pairs : List (PartState × Option ℚ)) (pos : ℚ) (idx : Nat),
      (∀ pw ∈ pairs, pw.1.hidden = false ∧ pw.1.collapsed = false ∧ qTruthy pw.2 = true) →
      (setPartSizesLoop .vertical hS sp tW aW aS pairs pos idx).2 =
        (List.range pairs.length).map (fun j =>
          (idx + j, pos + (j + 1 : ℚ) * hS +
            ((pairs.take (j + 1)).map (fun pw =>
              max (jsOr pw.2 aW / tW * aS) pw.1.minSize)).sum + (j : ℚ) * sp))
  | [], _, _, _ => rfl
  | (part, weight) :: rest, pos, idx, hall => by
    obtain ⟨hh, hc, -⟩ := hall (part, weight) (List.mem_cons_self _ _)
    have hh' : part.hidden = false := hh
    have hc' : part.collapsed = false := hc
    have ih := setPartSizesLoop_handles_expanded hS sp tW aW aS rest
      (pos + hS + max (jsOr weight aW / tW * aS) part.minSize + sp) (idx + 1)
      (fun pw hpw => hall pw (List.mem_cons_of_mem _ hpw))
    rw [setPartSizesLoop]
    rw [if_neg (by rw [hh']; exact Bool.false_ne_true)]
    simp only [beq_self_eq_true, if_true, hc', Bool.false_eq_true, if_false]
    rw [ite_lt_eq_max, ih]
    rw [List.length_cons, List.range_succ_eq_map, List.map_cons, List.map_map]
    congr 1
    · simp only [Nat.add_zero, Nat.cast_zero, List.take_succ_cons, List.take_zero,
        List.map_cons, List.map_nil, List.sum_cons, List.sum_nil]
      congr 1
      ring
    · apply List.map_congr_left
      intro j hj
      simp only [Function.comp_apply, List.take_succ_cons, List.map_cons, List.sum_cons]
      have h1 : idx + 1 + j = idx + (j + 1) := by omega
      rw [h1]
      congr 1
      push_cast
      ring

theorem map_snd_zip_take {α β : Type _} :
    ∀ (l1 : List α) (l2 : List β), (l1.zip l2).map Prod.snd = l2.take l1.length
  | [], _ => by simp
  | _ :: _, [] => by simp
  | a :: l1, b :: l2 => by simp [map_snd_zip_take l1 l2]

/-- C1: with every part visible and expanded and a positive weight for each,
`setPartSizes` emits one handle per part except the last, handle `i` sitting
at the accumulated position of the first `i + 1` parts: one header height per
part walked, content size `weight / totalWeight * availableSize` clamped up to
the minimum content size per part walked, and one spacing gap per handle
already placed.  The pre-clamp content sizes of all parts sum exactly to the
available size. -/
theorem setPartSizes_distributes (cs : ContainerState) (ws : List ℚ)
    (hvert : cs.orientation = .vertical)
    (hlen : ws.length = cs.parts.length)
    (hne : cs.parts ≠ [])
    (hvis : ∀ p ∈ cs.parts, p.hidden = false ∧ p.collapsed = false)
    (hpos : ∀ w ∈ ws, 0 < w)
    (havail : getAvailableSize cs ≠ 0) :
    ((List.range cs.parts.length).map
        (fun j => ws.getD j 0 / ws.sum * getAvailableSize cs)).sum = getAvailableSize cs ∧
    (setPartSizes cs (ws.map some)).2 =
      (List.range (cs.parts.length - 1)).map (fun i =>
        (i, accumHandlePos cs.opts
          (fun j => max (ws.getD j 0 / ws.sum * getAvailableSize cs)
            ((cs.parts.getD j default).minSize)) i)) := by
  have hwne : ws ≠ [] := by
    intro hws
    apply hne
    rw [hws] at hlen
    exact List.length_eq_zero.mp hlen.symm
  have hWpos : 0 < ws.sum := List.sum_pos ws hpos hwne
  have hW0 : ws.sum ≠ 0 := ne_of_gt hWpos
  have hsumconj : ((List.range cs.parts.length).map
      (fun j => ws.getD j 0 / ws.sum * getAvailableSize cs)).sum = getAvailableSize cs := by
    have hfeq : (fun j => ws.getD j 0 / ws.sum * getAvailableSize cs) =
        (fun j => ws.getD j 0 * (getAvailableSize cs / ws.sum)) := by
      funext j
      rw [div_mul_eq_mul_div, mul_div_assoc]
    rw [hfeq,
      List.sum_map_mul_right (List.range cs.parts.length) (fun j => ws.getD j 0)
        (getAvailableSize cs / ws.sum)]
    have hgd : (List.range cs.parts.length).map (fun j => ws.getD j 0) = ws := by
      apply List.ext_getElem
      · simp [hlen]
      · intro t h1 h2
        simp only [List.getElem_map, List.getElem_range]
        exact List.getD_eq_getElem ws 0 h2
    rw [hgd, mul_comm, div_mul_cancel₀ _ hW0]
  have hZipAll : ∀ pw ∈ cs.parts.zip (ws.map some),
      (qTruthy pw.2 && !pw.1.hidden && !pw.1.collapsed) = true := by
    rintro ⟨a, b⟩ hpw
    obtain ⟨ha, hb⟩ := List.of_mem_zip hpw
    obtain ⟨w, hw, hwb⟩ := List.mem_map.mp hb
    obtain ⟨hah, hac⟩ := hvis a ha
    have hqb : qTruthy b = true := by
      rw [← hwb]
      simp only [qTruthy, bne_iff_ne, ne_eq]
      exact ne_of_gt (hpos w hw)
    simp [hqb, hah, hac]
  have hwc : (List.filter (fun pw => qTruthy pw.2 && !pw.1.hidden && !pw.1.collapsed)
      (cs.parts.zip (ws.map some))).length = cs.parts.length := by
    rw [List.filter_eq_self.mpr hZipAll, List.length_zip, List.length_map, hlen]
    omega
  have hnn : cs.parts.length ≠ 0 := by
    intro h
    exact hne (List.length_eq_zero.mp h)
  have hextra : List.filter (fun pw => !qTruthy pw.2 && !pw.1.hidden && !pw.1.collapsed)
      (cs.parts.zip (ws.map some)) = [] := by
    rw [List.filter_eq_nil_iff]
    intro pw hpw
    have hall := hZipAll pw hpw
    simp only [Bool.and_eq_true] at hall
    simp [hall.1.1]
  have hsum0 : (List.map (fun pw =>
      if qTruthy pw.2 && !pw.1.hidden && !pw.1.collapsed then pw.2.getD 0 else 0)
      (cs.parts.zip (ws.map some))).sum = ws.sum := by
    have h1 : List.map (fun pw =>
        if qTruthy pw.2 && !pw.1.hidden && !pw.1.collapsed then pw.2.getD 0 else 0)
        (cs.parts.zip (ws.map some)) =
        List.map (fun pw => pw.2.getD 0) (cs.parts.zip (ws.map some)) := by
      apply List.map_congr_left
      intro pw hpw
      rw [if_pos (hZipAll pw hpw)]
    have h2 : List.map (fun pw => pw.2.getD 0) (cs.parts.zip (ws.map some)) =
        ((cs.parts.zip (ws.map some)).map Prod.snd).map (fun x => x.getD 0) := by
      rw [List.map_map]
      rfl
    have h3 : (ws.map some).take cs.parts.length = ws.map some := by
      rw [← hlen, ← List.length_map ws some]
      exact List.take_length _
    rw [h1, h2, map_snd_zip_take, h3, List.map_map]
    have h4 : ((fun x : Option ℚ => x.getD 0) ∘ some) = id := funext (fun w => rfl)
    rw [h4, List.map_id]
  have hallpairs : ∀ pw ∈ cs.parts.dropLast.zip (ws.map some),
      pw.1.hidden = false ∧ pw.1.collapsed = false ∧ qTruthy pw.2 = true := by
    rintro ⟨a, b⟩ hpw
    obtain ⟨ha, hb⟩ := List.of_mem_zip hpw
    have ha2 := List.dropLast_subset _ ha
    obtain ⟨w, hw, hwb⟩ := List.mem_map.mp hb
    obtain ⟨h1, h2⟩ := hvis a ha2
    refine ⟨h1, h2, ?_⟩
    rw [← hwb]
    simp only [qTruthy, bne_iff_ne, ne_eq]
    exact ne_of_gt (hpos w hw)
  have hpl : (cs.parts.dropLast.zip (ws.map some)).length = cs.parts.length - 1 := by
    rw [List.length_zip, List.length_dropLast, List.length_map, hlen]
    omega
  refine ⟨hsumconj, ?_⟩
  unfold setPartSizes
  dsimp only
  rw [hwc, hsum0, hextra]
  simp only [List.length_nil, Nat.cast_zero, mul_zero, add_zero]
  rw [if_neg (by simp [hnn, havail])]
  dsimp only
  rw [hvert]
  rw [setPartSizesLoop_handles_expanded cs.opts.headerSize cs.opts.spacing ws.sum
    (ws.sum / (cs.parts.length : ℚ)) (getAvailableSize cs)
    (cs.parts.dropLast.zip (ws.map some)) 0 0 hallpairs]
  rw [hpl]
  apply List.map_congr_left
  intro j hj
  rw [List.mem_range] at hj
  have htake : ((cs.parts.dropLast.zip (ws.map some)).take (j + 1)).map (fun pw =>
      max (jsOr pw.2 (ws.sum / (cs.parts.length : ℚ)) / ws.sum * getAvailableSize cs)
        pw.1.minSize) =
      (List.range (j + 1)).map (fun t =>
        max (ws.getD t 0 / ws.sum * getAvailableSize cs) ((cs.parts.getD t default).minSize)) := by
    apply List.ext_getElem
    · simp only [List.length_map, List.length_take, List.length_range, hpl]
      omega
    · intro t h1 h2
      simp only [List.length_map, List.length_take, List.length_range, hpl] at h1 h2
      have htp : t < (cs.parts.dropLast.zip (ws.map some)).length := by
        rw [hpl]
        omega
      have htdl : t < cs.parts.dropLast.length := by
        rw [List.length_dropLast]
        omega
      have htn : t < cs.parts.length := by
        omega
      have htw : t < ws.length := by
        rw [hlen]
        omega
      have htm : t < (ws.map some).length := by
        rw [List.length_map]
        omega
      simp only [List.getElem_map, List.getElem_take, List.getElem_range, List.getElem_zip,
        List.getElem_dropLast]
      have hjs : jsOr (some (ws[t])) (ws.sum / (cs.parts.length : ℚ)) = ws[t] := by
        have : ws[t] ≠ 0 := ne_of_gt (hpos _ (List.getElem_mem htw))
        simp [jsOr, this]
      rw [hjs, List.getD_eq_getElem ws 0 htw, List.getD_eq_getElem cs.parts default htn]
  rw [htake, accumHandlePos_eq_sum]
  simp only [Prod.mk.injEq]
  constructor
  · omega
  · ring

/-- Witness for C1: the scenario of the spec.  Three visible expanded parts
with weights 0.5 / 0.3 / 0.2 and available size 1000 put handle 0 at
22 + 500 = 522 and handle 1 at 522 + 2 + 22 + 300 = 846, and the pre-clamp
content sizes sum to the available size. -/
theorem setPartSizes_distributes_witness :
    (setPartSizes ex3 ([1/2, 3/10, 1/5].map some)).2 = [(0, 522), (1, 846)] ∧
    ((List.range ex3.parts.length).map
        (fun j => [(1 : ℚ)/2, 3/10, 1/5].getD j 0 / ([(1 : ℚ)/2, 3/10, 1/5].sum) *
          getAvailableSize ex3)).sum = getAvailableSize ex3 := by
  have h := setPartSizes_distributes ex3 [1/2, 3/10, 1/5] (by decide) (by decide) (by decide)
    (by decide)
    (by intro w hw; fin_cases hw <;> norm_num)
    (by
      norm_num [getAvailableSize, ex3, exPart, exOpts]
      simp only [show (SplitOrientation.vertical = SplitOrientation.horizontal) = False from
        by simp, if_false]
      norm_num)
  refine ⟨?_, h.1⟩
  rw [h.2]
  norm_num [ex3, exPart, exOpts, getAvailableSize, accumHandlePos, max_def,
    List.range_succ]
  simp only [show (SplitOrientation.vertical = SplitOrientation.horizontal) = False from
    by simp, if_false]
  norm_num

/-! ### Restore / store round-trip machinery -/

theorem setCollapsed_vertical_collapsed (p : PartState) (c : Bool) :
    (setCollapsed .vertical p c).collapsed = c := by
  unfold setCollapsed
  by_cases h : p.collapsed == c
  · rw [if_pos (by simp [h])]
    simpa using h
  · rw [if_neg (by simpa using h)]

theorem findIdx?_partId_self :
    ∀ (l : List PartState), l.Pairwise (fun a b => a.partId ≠ b.partId) →
      ∀ (k : Nat) (hk : k < l.length),
        l.findIdx? (fun p => p.partId == (l[k]).partId) = some k
  | [], _, k, hk => by simp at hk
  | x :: xs, hpw, 0, hk => by
    rw [List.findIdx?_cons]
    simp
  | x :: xs, hpw, k + 1, hk => by
    rw [List.findIdx?_cons]
    rw [List.pairwise_cons] at hpw
    have hk2 : k < xs.length := by simpa using hk
    have hx : (x.partId == ((x :: xs)[k + 1]).partId) = false := by
      rw [List.getElem_cons_succ]
      have hne := hpw.1 (xs[k]) (List.getElem_mem hk2)
      simp only [beq_eq_false_iff_ne, ne_eq]
      exact hne
    rw [if_neg (by rw [hx]; exact Bool.false_ne_true)]
    rw [List.getElem_cons_succ]
    have ih := findIdx?_partId_self xs hpw.2 k hk2
    rw [show (1 : Nat) = 0 + 1 from rfl, List.findIdx?_succ, ih]
    rfl

theorem restoreReorder_aligned_aux (l : List PartState)
    (huniq : l.Pairwise (fun a b => a.partId ≠ b.partId))
    (f : PartState → PartStoredState) (hf : ∀ p, (f p).partId = p.partId) :
    ∀ (n k : Nat), l.length - k = n → restoreReorder l ((l.drop k).map f) k = l
  | 0, k, h => by
    rw [List.drop_eq_nil_of_le (by omega)]
    rfl
  | n + 1, k, h => by
    have hk : k < l.length := by omega
    rw [List.drop_eq_getElem_cons hk, List.map_cons, restoreReorder]
    have hfi : l.findIdx? (fun p => p.partId == (f (l[k])).partId) = some k := by
      rw [hf]
      exact findIdx?_partId_self l huniq k hk
    rw [hfi]
    dsimp only
    rw [if_neg (by omega)]
    exact restoreReorder_aligned_aux l huniq f hf n (k + 1) (by omega)

theorem find?_map_self :
    ∀ (l : List PartState), l.Pairwise (fun a b => a.partId ≠ b.partId) →
      ∀ (f : PartState → PartStoredState), (∀ p, (f p).partId = p.partId) →
      ∀ p ∈ l, (l.map f).find? (fun s => p.partId == s.partId) = some (f p)
  | [], _, _, _, _, hp => by simp at hp
  | x :: xs, hpw, f, hf, p, hp => by
    rw [List.pairwise_cons] at hpw
    rw [List.map_cons, List.find?_cons]
    rcases List.mem_cons.mp hp with hpx | hpxs
    · subst hpx
      rw [show (p.partId == (f p).partId) = true from by simp [hf]]
    · have hne : p.partId ≠ x.partId := fun he => hpw.1 p hpxs he.symm
      rw [show (p.partId == (f x).partId) = false from by simp [hf, hne]]
      exact find?_map_self xs hpw.2 f hf p hpxs

theorem find?_filter_matching (parts : List PartState) (p : PartState) (hp : p ∈ parts) :
    ∀ stored : List PartStoredState,
      (stored.filter (fun s => parts.any (fun q => q.partId == s.partId))).find?
        (fun s => p.partId == s.partId) =
      stored.find? (fun s => p.partId == s.partId)
  | [] => rfl
  | s :: rest => by
    by_cases hm : (p.partId == s.partId) = true
    · have hkeep : (parts.any (fun q => q.partId == s.partId)) = true :=
        List.any_eq_true.mpr ⟨p, hp, hm⟩
      simp only [List.filter_cons, hkeep, if_true, List.find?_cons, hm]
    · have hm2 : (p.partId == s.partId) = false := by simpa using hm
      simp only [List.filter_cons, List.find?_cons, hm2]
      split
      · simp only [List.find?_cons, hm2]
        exact find?_filter_matching parts p hp rest
      · exact find?_filter_matching parts p hp rest

theorem storeStatePart_partId (cs : ContainerState) (a : ℚ) (p : PartState) :
    (storeStatePart cs a p).partId = p.partId := rfl

theorem storeStatePart_collapsed (cs : ContainerState) (a : ℚ) (p : PartState) :
    (storeStatePart cs a p).collapsed = p.collapsed := rfl

theorem storeStatePart_hidden (cs : ContainerState) (a : ℚ) (p : PartState) :
    (storeStatePart cs a p).hidden = p.hidden := rfl

theorem storeStatePart_relativeSize_truthy (cs : ContainerState) (p : PartState)
    (hq : qTruthy (getPartSize p) = true) (hav : getAvailableSize cs ≠ 0) :
    qTruthy ((storeStatePart cs (getAvailableSize cs) p).relativeSize) = true := by
  unfold storeStatePart
  cases hgp : getPartSize p with
  | none => rw [hgp] at hq; simp [qTruthy] at hq
  | some s =>
    rw [hgp] at hq
    have hs0 : s ≠ 0 := by simpa [qTruthy] using hq
    dsimp only
    by_cases hcond : (s != 0 && decide (HEADER_HEIGHT < s) && cs.orientation == .vertical) = true
    · rw [if_pos hcond]
      have hlt : HEADER_HEIGHT < s := by
        simp only [Bool.and_eq_true, decide_eq_true_eq] at hcond
        exact hcond.1.2
      have hsub : s - HEADER_HEIGHT ≠ 0 := sub_ne_zero.mpr (ne_of_gt hlt)
      dsimp only
      rw [if_pos (by simp [hsub, hav])]
      simpa [qTruthy] using div_ne_zero hsub hav
    · rw [if_neg hcond]
      dsimp only
      rw [if_pos (by simp [hs0, hav])]
      simpa [qTruthy] using div_ne_zero hs0 hav

/-! ### C2 -/

/-- Counterexample to C2 as stated: on a never-attached container (every
measured size is zero, so the available size is zero and no relative size can
be stored), `restoreState (storeState ())` flips the expanded part to
collapsed, changing the observable flags. -/
theorem restore_store_roundtrip_counterexample :
    storeState exDetached =
      [{ partId := "a", collapsed := false, hidden := false, relativeSize := none }] ∧
    (restoreState exDetached (storeState exDetached)).parts.map flagsOf = [("a", true, false)] ∧
    exDetached.parts.map flagsOf = [("a", false, false)] := by
  have hstore : storeState exDetached =
      [{ partId := "a", collapsed := false, hidden := false, relativeSize := none }] := by
    norm_num [storeState, storeStatePart, getPartSize, getAvailableSize, HEADER_HEIGHT,
      exDetached, exPart, exOpts]
  refine ⟨hstore, ?_, by decide⟩
  rw [hstore]
  decide

/-- C2 (amended): provided no two live parts share a `partId`, the available
size is nonzero, and every part that is not collapsed has a truthy retained
size (`getPartSize`), `restoreState (storeState ())` on an unchanged container
reproduces the order and the collapsed and hidden flag of every part. -/
theorem restore_store_roundtrip (cs : ContainerState)
    (huniq : cs.parts.Pairwise (fun a b => a.partId ≠ b.partId))
    (hsize : ∀ p ∈ cs.parts, p.collapsed = false → qTruthy (getPartSize p) = true)
    (havail : getAvailableSize cs ≠ 0) :
    (restoreState cs (storeState cs)).parts.map flagsOf = cs.parts.map flagsOf := by
  have hstore : storeState cs = cs.parts.map (storeStatePart cs (getAvailableSize cs)) := rfl
  have hfilter : (storeState cs).filter
      (fun s => cs.parts.any (fun p => p.partId == s.partId)) = storeState cs := by
    apply List.filter_eq_self.mpr
    intro s hs
    rw [hstore] at hs
    obtain ⟨p, hp, hps⟩ := List.mem_map.mp hs
    exact List.any_eq_true.mpr ⟨p, hp, by rw [← hps, storeStatePart_partId]; simp⟩
  have hreorder : restoreReorder cs.parts (storeState cs) 0 = cs.parts := by
    have h0 : storeState cs = (cs.parts.drop 0).map (storeStatePart cs (getAvailableSize cs)) := by
      rw [List.drop_zero]
      exact hstore
    rw [h0]
    exact restoreReorder_aligned_aux cs.parts huniq _ (fun p => rfl) cs.parts.length 0
      (by omega)
  have happ : ∀ p ∈ cs.parts, applyStoredFlags cs.orientation (storeState cs) p = p := by
    intro p hp
    have hfind : (storeState cs).find? (fun s => p.partId == s.partId) =
        some (storeStatePart cs (getAvailableSize cs) p) := by
      rw [hstore]
      exact find?_map_self cs.parts huniq _ (fun _ => rfl) p hp
    unfold applyStoredFlags
    rw [hfind]
    dsimp only
    rw [storeStatePart_collapsed, storeStatePart_hidden]
    by_cases hc : p.collapsed = true
    · rw [hc]
      simp only [Bool.true_or]
      have hset : setCollapsed cs.orientation p true = p := by
        unfold setCollapsed
        rw [if_pos (by simp [hc])]
      rw [hset]
      split
      · rfl
      · rfl
    · have hc2 : p.collapsed = false := by simpa using hc
      have hrel := storeStatePart_relativeSize_truthy cs p (hsize p hp hc2) havail
      rw [hc2, hrel]
      simp only [Bool.not_true, Bool.or_false]
      have hset : setCollapsed cs.orientation p false = p := by
        unfold setCollapsed
        rw [if_pos (by simp [hc2])]
      rw [hset]
      split
      · rfl
      · rfl
  have hmap : cs.parts.map (applyStoredFlags cs.orientation (storeState cs)) = cs.parts := by
    rw [List.map_congr_left happ]
    exact List.map_id _
  unfold restoreState
  rw [hfilter]
  dsimp only
  rw [hreorder, hmap]
  exact setPartSizes_parts_flags _ _

/-- Witness for C2 (amended): the concrete three-part container round-trips
its flags exactly. -/
theorem restore_store_roundtrip_witness :
    (restoreState ex3 (storeState ex3)).parts.map flagsOf = ex3.parts.map flagsOf :=
  restore_store_roundtrip ex3 (by decide) (by decide)
    (by
      norm_num [getAvailableSize, ex3, exPart, exOpts]
      simp only [show (SplitOrientation.vertical = SplitOrientation.horizontal) = False from
        by simp, if_false]
      norm_num)

/-! ### C6 -/

theorem applyStoredFlags_collapsed_some (sts : List PartStoredState) (p : PartState)
    (s : PartStoredState) (hf : sts.find? (fun s => p.partId == s.partId) = some s) :
    (applyStoredFlags .vertical sts p).collapsed = (s.collapsed || !qTruthy s.relativeSize) := by
  unfold applyStoredFlags
  rw [hf]
  dsimp only
  split
  · rw [setHidden_collapsed, setCollapsed_vertical_collapsed]
  · rw [setCollapsed_vertical_collapsed]

theorem applyStoredFlags_hidden_some_canHide (o : SplitOrientation) (sts : List PartStoredState)
    (p : PartState) (s : PartStoredState) (hf : sts.find? (fun s => p.partId == s.partId) = some s)
    (hch : p.canHide = true) :
    (applyStoredFlags o sts p).hidden = s.hidden := by
  unfold applyStoredFlags
  rw [hf]
  dsimp only
  rw [if_pos (by rw [setCollapsed_canHide]; exact hch)]
  rw [setHidden_hidden]

theorem applyStoredFlags_none_fields (o : SplitOrientation) (sts : List PartStoredState)
    (p : PartState) (hf : sts.find? (fun s => p.partId == s.partId) = none) :
    (applyStoredFlags o sts p).collapsed = p.collapsed ∧
    (p.canHide = true → (applyStoredFlags o sts p).hidden = true) := by
  unfold applyStoredFlags
  rw [hf]
  dsimp only
  constructor
  · split
    · rw [setHidden_collapsed]
    · rfl
  · intro hch
    rw [if_pos hch, setHidden_hidden]

/-- Counterexample to C6 as stated: a stored entry with `collapsed = false`
and a present `relativeSize` of `0` still forces the matching live part to
collapsed, because JavaScript treats the stored `0` as falsy. -/
theorem restoreState_flags_counterexample :
    exC6Stored.find? (fun s => "a" == s.partId) =
      some { partId := "a", collapsed := false, hidden := false, relativeSize := some 0 } ∧
    (restoreState exC6C exC6Stored).parts.map (fun p => p.collapsed) = [true] ∧
    exC6C.parts.map (fun p => p.collapsed) = [false] := by
  exact ⟨by decide, by decide, by decide⟩

/-- C6 (amended): stored entries whose `partId` matches no live part are
dropped without any other effect, and in vertical orientation every live part
ends with collapsed equal to stored collapsed OR stored relativeSize absent or
zero (JavaScript falsiness), hidden equal to the stored hidden flag when it
may hide, hidden when it may hide and no entry matches, and hidden unchanged
when it may not hide; the matching entry is the first stored entry with the
same partId. -/
theorem restoreState_flags_amended (cs : ContainerState) (stored : List PartStoredState)
    (hvert : cs.orientation = .vertical) :
    restoreState cs stored =
      restoreState cs (stored.filter (fun s => cs.parts.any (fun p => p.partId == s.partId))) ∧
    (∀ p ∈ cs.parts, ∃ q ∈ (restoreState cs stored).parts, q.partId = p.partId ∧
      (match stored.find? (fun s => p.partId == s.partId) with
       | some s =>
         q.collapsed = (s.collapsed || !qTruthy s.relativeSize) ∧
         (p.canHide = true → q.hidden = s.hidden) ∧
         (p.canHide = false → q.hidden = p.hidden)
       | none =>
         q.collapsed = p.collapsed ∧
         (p.canHide = true → q.hidden = true) ∧
         (p.canHide = false → q.hidden = p.hidden))) := by
  constructor
  · have hff : (stored.filter (fun s => cs.parts.any (fun p => p.partId == s.partId))).filter
        (fun s => cs.parts.any (fun p => p.partId == s.partId)) =
        stored.filter (fun s => cs.parts.any (fun p => p.partId == s.partId)) :=
      List.filter_eq_self.mpr (by
        intro a ha
        exact @List.of_mem_filter PartStoredState
          (fun s => cs.parts.any fun p => p.partId == s.partId) a stored ha)
    unfold restoreState
    rw [hff]
  · intro p hp
    have h1 : p ∈ restoreReorder cs.parts
        (stored.filter (fun s => cs.parts.any (fun q => q.partId == s.partId))) 0 :=
      mem_restoreReorder _ _ _ _ hp
    have h2 : applyStoredFlags cs.orientation
          (stored.filter (fun s => cs.parts.any (fun q => q.partId == s.partId))) p ∈
        (restoreReorder cs.parts
          (stored.filter (fun s => cs.parts.any (fun q => q.partId == s.partId))) 0).map
          (applyStoredFlags cs.orientation
            (stored.filter (fun s => cs.parts.any (fun q => q.partId == s.partId)))) :=
      List.mem_map.mpr ⟨p, h1, rfl⟩
    have hfl : (restoreState cs stored).parts.map eraseUSize =
        ((restoreReorder cs.parts
          (stored.filter (fun s => cs.parts.any (fun q => q.partId == s.partId))) 0).map
          (applyStoredFlags cs.orientation
            (stored.filter (fun s => cs.parts.any (fun q => q.partId == s.partId))))).map
          eraseUSize :=
      setPartSizes_parts_eraseUSize _ _
    have h3 : eraseUSize (applyStoredFlags cs.orientation
          (stored.filter (fun s => cs.parts.any (fun q => q.partId == s.partId))) p) ∈
        (restoreState cs stored).parts.map eraseUSize := by
      rw [hfl]
      exact List.mem_map.mpr ⟨_, h2, rfl⟩
    obtain ⟨q, hq, hqe⟩ := List.mem_map.mp h3
    have hqpartId : q.partId = (applyStoredFlags cs.orientation
        (stored.filter (fun s => cs.parts.any (fun q => q.partId == s.partId))) p).partId := by
      have := congrArg PartState.partId hqe
      simpa [eraseUSize] using this
    have hqcol : q.collapsed = (applyStoredFlags cs.orientation
        (stored.filter (fun s => cs.parts.any (fun q => q.partId == s.partId))) p).collapsed := by
      have := congrArg PartState.collapsed hqe
      simpa [eraseUSize] using this
    have hqhid : q.hidden = (applyStoredFlags cs.orientation
        (stored.filter (fun s => cs.parts.any (fun q => q.partId == s.partId))) p).hidden := by
      have := congrArg PartState.hidden hqe
      simpa [eraseUSize] using this
    have hfind := find?_filter_matching cs.parts p hp stored
    refine ⟨q, hq, by rw [hqpartId, applyStoredFlags_partId], ?_⟩
    cases hsf : stored.find? (fun s => p.partId == s.partId) with
    | some s =>
      have hsf2 : (stored.filter (fun s => cs.parts.any (fun q => q.partId == s.partId))).find?
          (fun s => p.partId == s.partId) = some s := by
        rw [hfind]
        exact hsf
      refine ⟨?_, ?_, ?_⟩
      · rw [hqcol]
        show (applyStoredFlags cs.orientation _ p).collapsed = _
        rw [hvert]
        exact applyStoredFlags_collapsed_some _ _ _ hsf2
      · intro hch
        rw [hqhid]
        exact applyStoredFlags_hidden_some_canHide _ _ _ _ hsf2 hch
      · intro hch
        rw [hqhid]
        exact applyStoredFlags_hidden_of_not_canHide _ _ _ hch
    | none =>
      have hsf2 : (stored.filter (fun s => cs.parts.any (fun q => q.partId == s.partId))).find?
          (fun s => p.partId == s.partId) = none := by
        rw [hfind]
        exact hsf
      refine ⟨?_, ?_, ?_⟩
      · rw [hqcol]
        exact (applyStoredFlags_none_fields _ _ _ hsf2).1
      · intro hch
        rw [hqhid]
        exact (applyStoredFlags_none_fields _ _ _ hsf2).2 hch
      · intro hch
        rw [hqhid]
        exact applyStoredFlags_hidden_of_not_canHide _ _ _ hch

/-- Witness for C6 (amended): in the concrete single-part container with the
stored zero relative size, the part ends collapsed with its stored hidden
flag. -/
theorem restoreState_flags_amended_witness :
    restoreState exC6C exC6Stored =
      restoreState exC6C (exC6Stored.filter (fun s => exC6C.parts.any (fun p => p.partId == s.partId))) ∧
    ∃ q ∈ (restoreState exC6C exC6Stored).parts,
      q.partId = (exPart "a" false false 100 0 none {}).partId ∧
      (match exC6Stored.find? (fun s => (exPart "a" false false 100 0 none {}).partId == s.partId) with
       | some s =>
         q.collapsed = (s.collapsed || !qTruthy s.relativeSize) ∧
         ((exPart "a" false false 100 0 none {}).canHide = true → q.hidden = s.hidden) ∧
         ((exPart "a" false false 100 0 none {}).canHide = false →
           q.hidden = (exPart "a" false false 100 0 none {}).hidden)
       | none =>
         q.collapsed = (exPart "a" false false 100 0 none {}).collapsed ∧
         ((exPart "a" false false 100 0 none {}).canHide = true → q.hidden = true) ∧
         ((exPart "a" false false 100 0 none {}).canHide = false →
           q.hidden = (exPart "a" false false 100 0 none {}).hidden)) := by
  have h := restoreState_flags_amended exC6C exC6Stored rfl
  exact ⟨h.1, h.2 (exPart "a" false false 100 0 none {}) (by decide)⟩
